import Mathlib

/-
  Verification development for the Spade interpreter (a Lox-family
  tree-walking interpreter written in Rust).

  The Rust sources are embedded shallowly:
  * machine floats (f64) are modelled as exact rationals; every numeric
    value exercised by the theorems below is a small integer, on which
    f64 arithmetic is exact;
  * Rust's `&mut Environment` threading becomes explicit state passing;
    expression evaluation never mutates the caller's environment in the
    source (function calls build a value-copy child via
    `Environment::new_child`, and `Expr::Assign` is `unimplemented!()`),
    so `evalExpr` returns no environment;
  * panics (`unimplemented!` / `unreachable!`) become the distinguished
    outcome `panicked`;
  * general recursion (function calls can recurse through the
    environment) is made total with a fuel parameter; `fuelOut` is an
    artefact of the embedding and never occurs at sufficient fuel.
-/

namespace Spade

/-- Exact rational model of the source's `f64` numbers.  Every numeric
value exercised by the claims is a small integer or a short decimal, on
which `f64` arithmetic is exact, so an exact rational (kept normalized:
`den` positive and coprime to `num`) is a faithful model.  NaN, infinity
and rounding are not modelled — nothing in the claims produces them. -/
structure F where
  num : ℤ
  den : ℕ
  deriving DecidableEq, Repr

/-- Normalize a fraction by the gcd of numerator and denominator. -/
def F.norm (n : ℤ) (d : ℕ) : F :=
  let g := Nat.gcd n.natAbs d
  ⟨n / (g : ℤ), d / g⟩

instance (n : ℕ) : OfNat F n := ⟨⟨(n : ℤ), 1⟩⟩

/-- `f64` addition (exact on the values the claims exercise). -/
def F.add (a b : F) : F := F.norm (a.num * b.den + b.num * a.den) (a.den * b.den)

/-- `f64` subtraction. -/
def F.sub (a b : F) : F := F.norm (a.num * b.den - b.num * a.den) (a.den * b.den)

/-- `f64` multiplication. -/
def F.mul (a b : F) : F := F.norm (a.num * b.num) (a.den * b.den)

/-- `f64` negation. -/
def F.neg (a : F) : F := ⟨-a.num, a.den⟩

/-- `f64` division (the interpreter only divides after checking the
divisor against zero). -/
def F.div (a b : F) : F :=
  if 0 ≤ b.num then F.norm (a.num * b.den) (a.den * b.num.natAbs)
  else F.norm (-(a.num * b.den)) (a.den * b.num.natAbs)

instance : Add F := ⟨F.add⟩
instance : Sub F := ⟨F.sub⟩
instance : Mul F := ⟨F.mul⟩
instance : Neg F := ⟨F.neg⟩
instance : Div F := ⟨F.div⟩

/-- Token kinds, from `src/token.rs` (`TokenType`).  Rust variants that are
Lean keywords are suffixed with `Kw`. -/
inductive TokenType where
  | leftParen | rightParen | leftBrace | rightBrace | comma | dot
  | minus | plus | slash | star
  | semicolon
  | bang | bangEqual | equal | equalEqual | greater | greaterEqual | less | lessEqual
  | identifier | string | number
  | andKw | classKw | elseKw | falseKw | fnKw | forKw | ifKw | nilKw | orKw
  | printKw | returnKw | superKw | thisKw | trueKw | letKw | whileKw
  | eof
  deriving DecidableEq, BEq, Repr

/-- Literal payload of a token, from `src/token.rs` (`Literal`).  The f64
payload is modelled as a rational. -/
inductive TokenLiteral where
  | str (s : String)
  | num (q : F)
  deriving DecidableEq, Repr

/-- A scanned token, from `src/token.rs` (`Token`). -/
structure Token where
  token_type : TokenType
  lexeme : String
  literal : Option TokenLiteral
  line : ℕ
  deriving DecidableEq, Repr

/-- Unary operators, from `src/expressions.rs` (`UnaryOp`). -/
inductive UnaryOp where
  | minus
  | not
  deriving DecidableEq, Repr

/-- Binary operators, from `src/expressions.rs` (`BinaryOp`). -/
inductive BinaryOp where
  | multiply | divide | plus | minus
  | greater | greaterEqual | less | lessEqual
  | notEqual | equalEqual
  | andOp | orOp
  deriving DecidableEq, Repr

/-- Expression literals, from `src/expressions.rs` (`Literal`). -/
inductive Lit where
  | nil
  | number (q : F)
  | string (s : String)
  | bool (b : Bool)
  | var (t : Token)

/-- Expressions, from `src/expressions.rs` (`Expr`).  `call` is the variant
built by `Parser::call` and consumed by `evaluate_expression`. -/
inductive Expr where
  | binary (left : Expr) (op : BinaryOp) (right : Expr)
  | unary (op : UnaryOp) (e : Expr)
  | literal (l : Lit)
  | grouping (e : Expr)
  | assign (t : Token) (value : Expr)
  | call (callee : Expr) (arguments : List Expr)

/-- Statements, from `src/expressions.rs` (`Statement`); `fnDecl` and `ret`
are the `Fn` and `Return` variants built by the parser and consumed by the
evaluator (`Return` is a Lean keyword, hence `ret`). -/
inductive Statement where
  | expression (e : Expr)
  | print (e : Expr)
  | block (stmts : List Statement)
  | varDec (name : String) (initializer : Option Expr)
  | ifStmt (condition : Expr) (then_branch : Statement) (else_branch : Option Statement)
  | fnDecl (name : String) (parameters : List String) (body : Statement)
  | ret (e : Option Expr)

/-- A function value, from `src/evaluate.rs` (`SpadeFn`).  Note that it
stores no environment: the source captures nothing at definition time. -/
structure SpadeFn where
  parameters : List String
  body : Statement

/-- Runtime values, from `src/evaluate.rs` (`Value`). -/
inductive Value where
  | nil
  | bool (b : Bool)
  | number (q : F)
  | string (s : String)
  | function (fn : SpadeFn)

/-- `Value::is_truthy` from `src/evaluate.rs`. -/
def Value.is_truthy : Value → Bool
  | .nil => false
  | .bool b => b
  | _ => true

/-- The error channel, from `src/error.rs` (`SpadeError`); `ret` is the
`Return` variant (the return signal). -/
inductive SpadeError where
  | runtimeError (message : String) (line : ℕ)
  | ret (v : Value)

/-- One scope: Rust's `HashMap<String, Value>`, modelled as an association
list with replace-on-insert (only `insert`, `get`, `contains_key` are
used, and their semantics depend only on the key-value mapping). -/
abbrev Scope := List (String × Value)

/-- `HashMap::get`, first match wins (keys are unique by construction). -/
def scopeGet (name : String) : Scope → Option Value
  | [] => none
  | (k, v) :: rest => if k = name then some v else scopeGet name rest

/-- `HashMap::insert`: replace an existing binding, otherwise add one. -/
def scopeInsert (name : String) (v : Value) : Scope → Scope
  | [] => [(name, v)]
  | (k, w) :: rest =>
      if k = name then (name, v) :: rest else (k, w) :: scopeInsert name v rest

/-- The environment, from `src/environment.rs`: a stack of scopes.  Rust
keeps the innermost scope at the back of a `Vec`; here it is the head of
the list, so Rust's `iter().rev()` walk is a plain head-first walk. -/
structure Environment where
  stack : List Scope

/-- `Environment::new`: a single empty (global) scope. -/
def Environment.new : Environment := ⟨[[]]⟩

/-- `Environment::new_child`: clone the whole parent stack (a value copy)
and push a fresh empty scope on top. -/
def Environment.new_child (env : Environment) : Environment :=
  ⟨[] :: env.stack⟩

/-- `Environment::pop`: discard the innermost scope. -/
def Environment.pop (env : Environment) : Environment :=
  ⟨env.stack.tail⟩

/-- `Environment::define`: insert into the innermost scope (no-op on an
empty stack, mirroring the `if let Some(..)`). -/
def Environment.define (env : Environment) (name : String) (v : Value) : Environment :=
  match env.stack with
  | [] => env
  | s :: rest => ⟨scopeInsert name v s :: rest⟩

/-- `Environment::get`: search innermost to outermost. -/
def Environment.get (env : Environment) (name : String) : Except String Value :=
  go env.stack
where
  go : List Scope → Except String Value
    | [] => .error ("Undefined variable '" ++ name ++ "'.")
    | s :: rest =>
        match scopeGet name s with
        | some v => .ok v
        | none => go rest

/-- `Environment::assign`: write in the first scope that already contains
the name, innermost first. -/
def Environment.assign (env : Environment) (name : String) (v : Value) :
    Except String Environment :=
  match go env.stack with
  | some st => .ok ⟨st⟩
  | none => .error ("Undefined variable '" ++ name ++ "'.")
where
  go : List Scope → Option (List Scope)
    | [] => none
    | s :: rest =>
        if (scopeGet name s).isSome then some (scopeInsert name v s :: rest)
        else match go rest with
          | some rest' => some (s :: rest')
          | none => none

/-- Outcome of evaluating a statement or expression.  `ok`/`err` mirror the
Rust `Result<Value, SpadeError>`; `panicked` models a Rust panic
(`unimplemented!` / `unreachable!`), which unwinds past every handler;
`fuelOut` is the out-of-fuel artefact of the embedding. -/
inductive EvalOut where
  | ok (v : Value)
  | err (e : SpadeError)
  | panicked
  | fuelOut

/-- `literal_to_value` from `src/evaluate.rs`.  The `Var` case is
`unreachable!()` in the source and is indeed unreachable: the only call
site (`evaluate_expression`) filters `Literal::Var` out first. -/
def literalToValue : Lit → Value
  | .nil => .nil
  | .bool b => .bool b
  | .number n => .number n
  | .string s => .string s
  | .var _ => .nil

/-- `evaluate_binary` from `src/evaluate.rs`. -/
def evaluateBinary (left : Value) (op : BinaryOp) (right : Value) :
    Except SpadeError Value :=
  match op with
  | .plus =>
      match left, right with
      | .number l, .number r => .ok (.number (l + r))
      | _, _ => .error (.runtimeError "Invalid operands for +" 0)
  | .minus =>
      match left, right with
      | .number l, .number r => .ok (.number (l - r))
      | _, _ => .error (.runtimeError "Invalid operands for -" 0)
  | .multiply =>
      match left, right with
      | .number l, .number r => .ok (.number (l * r))
      | _, _ => .error (.runtimeError "Invalid operands for *" 0)
  | .divide =>
      match left, right with
      | .number l, .number r =>
          if r = 0 then .error (.runtimeError "Division by zero" 0)
          else .ok (.number (l / r))
      | _, _ => .error (.runtimeError "Invalid operands for /" 0)
  | _ => .error (.runtimeError "Unsupported binary operator" 0)

mutual

/-- `evaluate_expression` from `src/evaluate.rs`.  The second component is
the list of values printed while evaluating (a call's body may print).
The source never mutates the environment on any expression path, so no
environment is returned. -/
def evalExpr : ℕ → Expr → Environment → EvalOut × List Value
  | 0, _, _ => (.fuelOut, [])
  | fuel + 1, expr, env =>
    match expr with
    | .binary l op r =>
        match evalExpr fuel l env with
        | (.ok lv, out1) =>
            match evalExpr fuel r env with
            | (.ok rv, out2) =>
                match evaluateBinary lv op rv with
                | .ok v => (.ok v, out1 ++ out2)
                | .error e => (.err e, out1 ++ out2)
            | (other, out2) => (other, out1 ++ out2)
        | (other, out1) => (other, out1)
    | .unary op e =>
        match evalExpr fuel e env with
        | (.ok v, out) =>
            match op with
            | .minus =>
                match v with
                | .number n => (.ok (.number (-n)), out)
                | _ => (.err (.runtimeError "Invalid operand for unary -" 0), out)
            | .not =>
                match v with
                | .bool b => (.ok (.bool (!b)), out)
                | .nil => (.ok (.bool true), out)
                | _ => (.ok (.bool false), out)
        | (other, out) => (other, out)
    | .literal l =>
        match l with
        | .var tok =>
            match env.get tok.lexeme with
            | .ok v => (.ok v, [])
            | .error msg => (.err (.runtimeError msg tok.line), [])
        | _ => (.ok (literalToValue l), [])
    | .call callee arguments =>
        match evalExpr fuel callee env with
        | (.ok (.function fn), out) =>
            let (r, out2) := evalFunction fuel fn arguments env
            (r, out ++ out2)
        | (.ok _, out) => (.err (.runtimeError "Expected function" 0), out)
        | (other, out) => (other, out)
    | .grouping e => evalExpr fuel e env
    | .assign _ _ => (.panicked, [])

/-- `evaluate_function` from `src/evaluate.rs`: build a child scope from
the environment at the call site, check arity, evaluate and bind the
arguments in that child scope, run the body there, and consume a return
signal.  The caller's environment is never modified. -/
def evalFunction : ℕ → SpadeFn → List Expr → Environment → EvalOut × List Value
  | 0, _, _, _ => (.fuelOut, [])
  | fuel + 1, fn, arguments, env =>
    let child := Environment.new_child env
    if fn.parameters.length = arguments.length then
      match bindArgs fuel fn.parameters arguments child with
      | (.ok _, child', out) =>
          match evalStmt fuel fn.body child' with
          | (.ok v, _, out2) => (.ok v, out ++ out2)
          | (.err (.ret v), _, out2) => (.ok v, out ++ out2)
          | (.err e, _, out2) => (.err e, out ++ out2)
          | (.panicked, _, out2) => (.panicked, out ++ out2)
          | (.fuelOut, _, out2) => (.fuelOut, out ++ out2)
      | (other, _, out) => (other, out)
    else
      (.err (.runtimeError
        "Expected number of arguments to match number of parameters" 0), [])

/-- The argument-binding loop of `evaluate_function` (`for (i, argument) in
arguments.iter().enumerate()`): each argument is evaluated in the child
environment built so far, then the matching parameter is defined there.
Lists are walked in lockstep (the arity check has already ensured equal
lengths). -/
def bindArgs : ℕ → List String → List Expr → Environment →
    EvalOut × Environment × List Value
  | 0, _, _, env => (.fuelOut, env, [])
  | fuel + 1, params, arguments, env =>
    match params, arguments with
    | p :: ps, a :: rest =>
        match evalExpr fuel a env with
        | (.ok v, out) =>
            let env' := env.define p v
            let (r, env'', out2) := bindArgs fuel ps rest env'
            (r, env'', out ++ out2)
        | (other, out) => (other, env, out)
    | _, _ => (.ok .nil, env, [])

/-- `evaluate_statement` from `src/evaluate.rs`. -/
def evalStmt : ℕ → Statement → Environment → EvalOut × Environment × List Value
  | 0, _, env => (.fuelOut, env, [])
  | fuel + 1, stmt, env =>
    match stmt with
    | .expression e =>
        match evalExpr fuel e env with
        | (.ok _, out) => (.ok .nil, env, out)
        | (other, out) => (other, env, out)
    | .fnDecl name params body =>
        (.ok .nil, env.define name (.function ⟨params, body⟩), [])
    | .print e =>
        match evalExpr fuel e env with
        | (.ok v, out) => (.ok .nil, env, out ++ [v])
        | (other, out) => (other, env, out)
    | .ret oe =>
        match oe with
        | some e =>
            match evalExpr fuel e env with
            | (.ok v, out) => (.err (.ret v), env, out)
            | (other, out) => (other, env, out)
        | none => (.ok .nil, env, [])
    | .block stmts =>
        let (r, _, out) := evalStmts fuel stmts (Environment.new_child env)
        match r with
        | .ok _ => (.ok .nil, env, out)
        | other => (other, env, out)
    | .varDec name initializer =>
        match initializer with
        | some e =>
            match evalExpr fuel e env with
            | (.ok v, out) => (.ok .nil, env.define name v, out)
            | (other, out) => (other, env, out)
        | none => (.ok .nil, env.define name .nil, [])
    | .ifStmt c t eb =>
        match evalExpr fuel c env with
        | (.ok cv, out) =>
            if cv.is_truthy then
              let (r, env', out2) := evalStmt fuel t env
              (r, env', out ++ out2)
            else
              match eb with
              | some e =>
                  let (r, env', out2) := evalStmt fuel e env
                  (r, env', out ++ out2)
              | none => (.ok .nil, env, out)
        | (other, out) => (other, env, out)

/-- The statement loop of `Statement::Block` (`for statement in statements
{ evaluate_statement(statement, &mut env)?; }`). -/
def evalStmts : ℕ → List Statement → Environment →
    EvalOut × Environment × List Value
  | 0, _, env => (.fuelOut, env, [])
  | fuel + 1, stmts, env =>
    match stmts with
    | [] => (.ok .nil, env, [])
    | s :: rest =>
        match evalStmt fuel s env with
        | (.ok _, env', out) =>
            let (r, env'', out2) := evalStmts fuel rest env'
            (r, env'', out ++ out2)
        | (other, env', out) => (other, env', out)

end

/-- `Interpreter::stringify` from `src/interpreter.rs` (the human
representation of a value).  `n.fract() == 0.0` holds exactly for
integral floats, modelled as denominator 1; the non-integral branch
(`n.to_string()`, host float formatting) and the `Function` branch
(`format!("fn {:?}", ..)`) are not exercised by any claim and are
modelled up to the exact character sequence. -/
def stringify : Value → String
  | .nil => "nil"
  | .bool b => if b then "true" else "false"
  | .number n => if n.den = 1 then toString n.num else toString n.num ++ "/" ++ toString n.den
  | .string s => s
  | .function _ => "fn <fn>"

/-- Rust's `Debug` rendering of an `f64`: integral values print with a
trailing `.0` (e.g. `14.0`).  Non-integral values (host shortest
round-trip formatting) are not exercised by any claim and are modelled up
to the exact character sequence. -/
def f64Debug (q : F) : String :=
  if q.den = 1 then toString q.num ++ ".0" else toString q.num ++ "/" ++ toString q.den

/-- Rust's `{:?}` (derived `Debug`) rendering of a `Value` — this is what
`Statement::Print` actually writes (`println!("{:?}", val)` in
`evaluate_statement`).  The `String` case is modelled without escape
sequences and the `Function` case up to the exact character sequence;
neither is exercised by any claim. -/
def rustDebug : Value → String
  | .nil => "Nil"
  | .bool b => if b then "Bool(true)" else "Bool(false)"
  | .number q => "Number(" ++ f64Debug q ++ ")"
  | .string s => "String(" ++ s ++ ")"
  | .function _ => "Function(<fn>)"

/-- Result of `Interpreter::execute` / `Interpreter::interpret`:
`Result<(), String>` plus the two non-returning outcomes. -/
inductive ExecOut where
  | ok
  | errMsg (msg : String)
  | panicked
  | fuelOut

/-- `Interpreter::execute` from `src/interpreter.rs`: runs one statement,
formatting a runtime error as "<message> at line <line>"; a surviving
return signal hits `unreachable!()`, i.e. panics. -/
def Interpreter.execute (fuel : ℕ) (stmt : Statement) (env : Environment) :
    ExecOut × Environment × List Value :=
  match evalStmt fuel stmt env with
  | (.ok _, env', out) => (.ok, env', out)
  | (.err (.runtimeError m l), env', out) =>
      (.errMsg (m ++ " at line " ++ toString l), env', out)
  | (.err (.ret _), env', out) => (.panicked, env', out)
  | (.panicked, env', out) => (.panicked, env', out)
  | (.fuelOut, env', out) => (.fuelOut, env', out)

/-- `Interpreter::interpret` from `src/interpreter.rs`: execute the
statements in order, stopping at the first non-ok outcome. -/
def Interpreter.interpret (fuel : ℕ) (stmts : List Statement) (env : Environment) :
    ExecOut × Environment × List Value :=
  match stmts with
  | [] => (.ok, env, [])
  | s :: rest =>
      match Interpreter.execute fuel s env with
      | (.ok, env', out) =>
          let (r, env'', out2) := Interpreter.interpret fuel rest env'
          (r, env'', out ++ out2)
      | (other, env', out) => (other, env', out)

/-- The text actually written to standard output by a run, one entry per
`print` statement (each entry is followed by a newline). -/
def printedLines (out : List Value) : List String := out.map rustDebug

/-- Specification-side rendering of the call protocol the code implements
(used to state the amended claim C2): the pending parameter/argument
pairs are processed left to right, each argument being evaluated in the
child environment built so far, whose binding is then extended. -/
def bindArgsSpec : ℕ → List (String × Expr) → Environment →
    EvalOut × Environment × List Value
  | 0, _, env => (.fuelOut, env, [])
  | fuel + 1, pairs, env =>
    match pairs with
    | [] => (.ok .nil, env, [])
    | (p, a) :: rest =>
        match evalExpr fuel a env with
        | (.ok v, out) =>
            let (r, env', out2) := bindArgsSpec fuel rest (env.define p v)
            (r, env', out ++ out2)
        | (other, out) => (other, env, out)

/-- Specification-side description of a call (amended claim C2): a fresh
child scope is derived from the *caller's* environment at the call site
(function values record no defining environment); after the arity check,
the parameter/argument pairs are bound sequentially in that child scope,
so later arguments see the parameters already bound; the body runs in the
resulting scope and a return signal is consumed into the call's result. -/
def callSpec (fuel : ℕ) (fn : SpadeFn) (arguments : List Expr) (env : Environment) :
    EvalOut × List Value :=
  match fuel with
  | 0 => (.fuelOut, [])
  | fuel + 1 =>
    if fn.parameters.length = arguments.length then
      match bindArgsSpec fuel (fn.parameters.zip arguments) (Environment.new_child env) with
      | (.ok _, child, out) =>
          match evalStmt fuel fn.body child with
          | (.ok v, _, out2) => (.ok v, out ++ out2)
          | (.err (.ret v), _, out2) => (.ok v, out ++ out2)
          | (r, _, out2) => (r, out ++ out2)
      | (r, _, out) => (r, out)
    else
      (.err (.runtimeError
        "Expected number of arguments to match number of parameters" 0), [])

/-! ## Parser (`src/tree.rs`)

The Rust `Parser` holds the token vector and a cursor `current`; here the
state is the remaining-token suffix, and `previous()` (only ever called
right after a successful match) is modelled by returning the matched
token directly. -/

/-- Result of a parsing step: the parsed value and the remaining tokens. -/
abbrev PRes (α : Type) := Except String (α × List Token)

/-- `Parser::check`: does the next token have the given type? -/
def checkP (tt : TokenType) (ts : List Token) : Bool :=
  match ts with
  | [] => false
  | t :: _ => t.token_type == tt

/-- `Parser::match_token`: if the next token's type is one of `types`,
consume it and return it (Rust's subsequent `previous()`). -/
def matchTokenP (types : List TokenType) (ts : List Token) :
    Option Token × List Token :=
  match ts with
  | [] => (none, ts)
  | t :: rest =>
      if types.contains t.token_type then (some t, rest) else (none, t :: rest)

/-- `Parser::consume`: like `match_token` but failing with `msg`. -/
def consumeP (types : List TokenType) (msg : String) (ts : List Token) :
    PRes Token :=
  match matchTokenP types ts with
  | (some t, rest) => .ok (t, rest)
  | (none, _) => .error msg

mutual

/-- `Parser::expression`. -/
def pExpression : ℕ → List Token → PRes Expr
  | 0, _ => .error "parser out of fuel"
  | fuel + 1, ts => pEquality fuel ts

/-- `Parser::equality`. -/
def pEquality : ℕ → List Token → PRes Expr
  | 0, _ => .error "parser out of fuel"
  | fuel + 1, ts =>
    match pComparison fuel ts with
    | .ok (e, ts') => pEqualityLoop fuel e ts'
    | .error msg => .error msg

/-- The `while` loop of `Parser::equality`. -/
def pEqualityLoop : ℕ → Expr → List Token → PRes Expr
  | 0, _, _ => .error "parser out of fuel"
  | fuel + 1, e, ts =>
    match matchTokenP [.bangEqual, .equalEqual] ts with
    | (some t, ts') =>
        let op : BinaryOp :=
          match t.token_type with
          | .bangEqual => .notEqual
          | _ => .equalEqual
        match pComparison fuel ts' with
        | .ok (right, ts'') => pEqualityLoop fuel (.binary e op right) ts''
        | .error msg => .error msg
    | (none, _) => .ok (e, ts)

/-- `Parser::comparison`. -/
def pComparison : ℕ → List Token → PRes Expr
  | 0, _ => .error "parser out of fuel"
  | fuel + 1, ts =>
    match pTerm fuel ts with
    | .ok (e, ts') => pComparisonLoop fuel e ts'
    | .error msg => .error msg

/-- The `while` loop of `Parser::comparison`. -/
def pComparisonLoop : ℕ → Expr → List Token → PRes Expr
  | 0, _, _ => .error "parser out of fuel"
  | fuel + 1, e, ts =>
    match matchTokenP [.greater, .greaterEqual, .less, .lessEqual] ts with
    | (some t, ts') =>
        let op : BinaryOp :=
          match t.token_type with
          | .greater => .greater
          | .greaterEqual => .greaterEqual
          | .less => .less
          | _ => .lessEqual
        match pTerm fuel ts' with
        | .ok (right, ts'') => pComparisonLoop fuel (.binary e op right) ts''
        | .error msg => .error msg
    | (none, _) => .ok (e, ts)

/-- `Parser::term`. -/
def pTerm : ℕ → List Token → PRes Expr
  | 0, _ => .error "parser out of fuel"
  | fuel + 1, ts =>
    match pFactor fuel ts with
    | .ok (e, ts') => pTermLoop fuel e ts'
    | .error msg => .error msg

/-- The `while` loop of `Parser::term`. -/
def pTermLoop : ℕ → Expr → List Token → PRes Expr
  | 0, _, _ => .error "parser out of fuel"
  | fuel + 1, e, ts =>
    match matchTokenP [.minus, .plus] ts with
    | (some t, ts') =>
        let op : BinaryOp :=
          match t.token_type with
          | .minus => .minus
          | _ => .plus
        match pFactor fuel ts' with
        | .ok (right, ts'') => pTermLoop fuel (.binary e op right) ts''
        | .error msg => .error msg
    | (none, _) => .ok (e, ts)

/-- `Parser::factor`. -/
def pFactor : ℕ → List Token → PRes Expr
  | 0, _ => .error "parser out of fuel"
  | fuel + 1, ts =>
    match pUnary fuel ts with
    | .ok (e, ts') => pFactorLoop fuel e ts'
    | .error msg => .error msg

/-- The `while` loop of `Parser::factor`. -/
def pFactorLoop : ℕ → Expr → List Token → PRes Expr
  | 0, _, _ => .error "parser out of fuel"
  | fuel + 1, e, ts =>
    match matchTokenP [.slash, .star] ts with
    | (some t, ts') =>
        let op : BinaryOp :=
          match t.token_type with
          | .slash => .divide
          | _ => .multiply
        match pUnary fuel ts' with
        | .ok (right, ts'') => pFactorLoop fuel (.binary e op right) ts''
        | .error msg => .error msg
    | (none, _) => .ok (e, ts)

/-- `Parser::unary`. -/
def pUnary : ℕ → List Token → PRes Expr
  | 0, _ => .error "parser out of fuel"
  | fuel + 1, ts =>
    match matchTokenP [.bang, .minus] ts with
    | (some t, ts') =>
        let op : UnaryOp :=
          match t.token_type with
          | .bang => .not
          | _ => .minus
        match pUnary fuel ts' with
        | .ok (right, ts'') => .ok (.unary op right, ts'')
        | .error msg => .error msg
    | (none, _) => pCall fuel ts

/-- `Parser::call`: a primary wrapped in zero or more argument lists. -/
def pCall : ℕ → List Token → PRes Expr
  | 0, _ => .error "parser out of fuel"
  | fuel + 1, ts =>
    match pPrimary fuel ts with
    | .ok (e, ts') => pCallLoop fuel e ts'
    | .error msg => .error msg

/-- The `while` loop of `Parser::call`. -/
def pCallLoop : ℕ → Expr → List Token → PRes Expr
  | 0, _, _ => .error "parser out of fuel"
  | fuel + 1, e, ts =>
    match matchTokenP [.leftParen] ts with
    | (some _, ts') =>
        match pEndArguments fuel ts' with
        | .ok (arguments, ts'') => pCallLoop fuel (.call e arguments) ts''
        | .error msg => .error msg
    | (none, _) => .ok (e, ts)

/-- `Parser::end_arguments`: the argument loop plus the closing paren. -/
def pEndArguments : ℕ → List Token → PRes (List Expr)
  | 0, _ => .error "parser out of fuel"
  | fuel + 1, ts =>
    match pArgsLoop fuel [] ts with
    | .ok (arguments, ts') =>
        match consumeP [.rightParen] "Expect ')' after arguments" ts' with
        | .ok (_, ts'') => .ok (arguments, ts'')
        | .error msg => .error msg
    | .error msg => .error msg

/-- The `while` loop of `Parser::end_arguments`: arguments separated by
commas, stopping before the closing paren (or when no comma follows). -/
def pArgsLoop : ℕ → List Expr → List Token → PRes (List Expr)
  | 0, _, _ => .error "parser out of fuel"
  | fuel + 1, acc, ts =>
    if ts.isEmpty || checkP .rightParen ts then .ok (acc, ts)
    else
      match pExpression fuel ts with
      | .ok (e, ts') =>
          match matchTokenP [.comma] ts' with
          | (some _, ts'') => pArgsLoop fuel (acc ++ [e]) ts''
          | (none, _) => .ok (acc ++ [e], ts')
      | .error msg => .error msg

/-- `Parser::primary`. -/
def pPrimary : ℕ → List Token → PRes Expr
  | 0, _ => .error "parser out of fuel"
  | fuel + 1, ts =>
    match matchTokenP [.falseKw] ts with
    | (some _, ts') => .ok (.literal (.bool false), ts')
    | (none, _) =>
    match matchTokenP [.trueKw] ts with
    | (some _, ts') => .ok (.literal (.bool true), ts')
    | (none, _) =>
    match matchTokenP [.nilKw] ts with
    | (some _, ts') => .ok (.literal .nil, ts')
    | (none, _) =>
    match matchTokenP [.number] ts with
    | (some t, ts') =>
        match t.literal with
        | some (.num v) => .ok (.literal (.number v), ts')
        | _ => .error "Number token without number literal"
    | (none, _) =>
    match matchTokenP [.identifier] ts with
    | (some t, ts') => .ok (.literal (.var t), ts')
    | (none, _) =>
    match matchTokenP [.string] ts with
    | (some t, ts') =>
        match t.literal with
        | some (.str v) => .ok (.literal (.string v), ts')
        | _ => .error "String token without string literal"
    | (none, _) =>
    match matchTokenP [.leftParen] ts with
    | (some _, ts') =>
        match pExpression fuel ts' with
        | .ok (e, ts'') =>
            match matchTokenP [.rightParen] ts'' with
            | (some _, ts''') => .ok (.grouping e, ts''')
            | (none, _) => .error "Expect ')' after expression"
        | .error msg => .error msg
    | (none, _) => .error "Expect expression"

end

mutual

/-- `Parser::statement`: dispatch on the leading keyword. -/
def pStatement : ℕ → List Token → PRes Statement
  | 0, _ => .error "parser out of fuel"
  | fuel + 1, ts =>
    match matchTokenP [.printKw] ts with
    | (some _, ts') => pPrintStatement fuel ts'
    | (none, _) =>
    match matchTokenP [.letKw] ts with
    | (some _, ts') => pVarDeclaration fuel ts'
    | (none, _) =>
    match matchTokenP [.leftBrace] ts with
    | (some _, ts') => pBlockStatement fuel ts'
    | (none, _) =>
    match matchTokenP [.ifKw] ts with
    | (some _, ts') => pIfStatement fuel ts'
    | (none, _) =>
    match matchTokenP [.fnKw] ts with
    | (some _, ts') => pFnStatement fuel ts'
    | (none, _) =>
    match matchTokenP [.returnKw] ts with
    | (some _, ts') => pReturnStatement fuel ts'
    | (none, _) => pExpressionStatement fuel ts

/-- `Parser::print_statement`. -/
def pPrintStatement : ℕ → List Token → PRes Statement
  | 0, _ => .error "parser out of fuel"
  | fuel + 1, ts =>
    match pExpression fuel ts with
    | .ok (e, ts') =>
        match consumeP [.semicolon] "Expect ';' after value." ts' with
        | .ok (_, ts'') => .ok (.print e, ts'')
        | .error msg => .error msg
    | .error msg => .error msg

/-- `Parser::expression_statement`. -/
def pExpressionStatement : ℕ → List Token → PRes Statement
  | 0, _ => .error "parser out of fuel"
  | fuel + 1, ts =>
    match pExpression fuel ts with
    | .ok (e, ts') =>
        match consumeP [.semicolon] "Expect ';' after value." ts' with
        | .ok (_, ts'') => .ok (.expression e, ts'')
        | .error msg => .error msg
    | .error msg => .error msg

/-- `Parser::var_declaration`: note that the `=` is consumed
*unconditionally* after the name — the no-initializer form the parser
accepts is `let x = ;`, not `let x;`. -/
def pVarDeclaration : ℕ → List Token → PRes Statement
  | 0, _ => .error "parser out of fuel"
  | fuel + 1, ts =>
    match consumeP [.identifier]
        ("'let' assignment must be provided a name") ts with
    | .ok (name, ts') =>
        match consumeP [.equal]
            ("'let' assignment must be followed by '='") ts' with
        | .ok (_, ts'') =>
            match matchTokenP [.semicolon] ts'' with
            | (some _, ts''') => .ok (.varDec name.lexeme none, ts''')
            | (none, _) =>
                match pExpression fuel ts'' with
                | .ok (e, ts''') =>
                    match consumeP [.semicolon]
                        "Delaration must end with semicolon" ts''' with
                    | .ok (_, ts4) => .ok (.varDec name.lexeme (some e), ts4)
                    | .error msg => .error msg
                | .error msg => .error msg
        | .error msg => .error msg
    | .error msg => .error msg

/-- `Parser::block_statement`: the statement list plus the closing brace. -/
def pBlockStatement : ℕ → List Token → PRes Statement
  | 0, _ => .error "parser out of fuel"
  | fuel + 1, ts =>
    match pBlockList fuel [] ts with
    | .ok (stmts, ts') =>
        match consumeP [.rightBrace] "Expect '\x7d' after block" ts' with
        | .ok (_, ts'') => .ok (.block stmts, ts'')
        | .error msg => .error msg
    | .error msg => .error msg

/-- `Parser::block`: statements until end of input or a `}`. -/
def pBlockList : ℕ → List Statement → List Token → PRes (List Statement)
  | 0, _, _ => .error "parser out of fuel"
  | fuel + 1, acc, ts =>
    if ts.isEmpty || checkP .rightBrace ts then .ok (acc, ts)
    else
      match pStatement fuel ts with
      | .ok (s, ts') => pBlockList fuel (acc ++ [s]) ts'
      | .error msg => .error msg

/-- `Parser::if_statement`. -/
def pIfStatement : ℕ → List Token → PRes Statement
  | 0, _ => .error "parser out of fuel"
  | fuel + 1, ts =>
    match consumeP [.leftParen] "Expect '(' after 'if'" ts with
    | .ok (_, ts') =>
        match pExpression fuel ts' with
        | .ok (c, ts'') =>
            match consumeP [.rightParen] "Expect ')' after condition" ts'' with
            | .ok (_, ts''') =>
                match pStatement fuel ts''' with
                | .ok (tb, ts4) =>
                    match matchTokenP [.elseKw] ts4 with
                    | (some _, ts5) =>
                        match pStatement fuel ts5 with
                        | .ok (eb, ts6) => .ok (.ifStmt c tb (some eb), ts6)
                        | .error msg => .error msg
                    | (none, _) => .ok (.ifStmt c tb none, ts4)
                | .error msg => .error msg
            | .error msg => .error msg
        | .error msg => .error msg
    | .error msg => .error msg

/-- `Parser::fn_statement`.  Note: the source calls `block_statement`
directly after the parameter list *without consuming the opening `{`*, so
the `{ ... }` body text is parsed as one statement inside an un-opened
block, which then still demands a closing `}` of its own. -/
def pFnStatement : ℕ → List Token → PRes Statement
  | 0, _ => .error "parser out of fuel"
  | fuel + 1, ts =>
    match consumeP [.identifier] "Expect function name" ts with
    | .ok (name, ts') =>
        match consumeP [.leftParen] "Expect '(' after function name" ts' with
        | .ok (_, ts'') =>
            match pFnParamsLoop fuel [] ts'' with
            | .ok (parameters, ts''') =>
                match consumeP [.rightParen] "Expect ')' after parameters" ts''' with
                | .ok (_, ts4) =>
                    match pBlockStatement fuel ts4 with
                    | .ok (body, ts5) =>
                        .ok (.fnDecl name.lexeme parameters body, ts5)
                    | .error msg => .error msg
                | .error msg => .error msg
            | .error msg => .error msg
        | .error msg => .error msg
    | .error msg => .error msg

/-- The parameter `while` loop of `Parser::fn_statement`: identifiers
separated by commas, stopping before the closing paren (or when no comma
follows a parameter). -/
def pFnParamsLoop : ℕ → List String → List Token → PRes (List String)
  | 0, _, _ => .error "parser out of fuel"
  | fuel + 1, acc, ts =>
    if ts.isEmpty || checkP .rightParen ts then .ok (acc, ts)
    else
      match consumeP [.identifier] "Expect parameter name" ts with
      | .ok (p, ts') =>
          match matchTokenP [.comma] ts' with
          | (some _, ts'') => pFnParamsLoop fuel (acc ++ [p.lexeme]) ts''
          | (none, _) => .ok (acc ++ [p.lexeme], ts')
      | .error msg => .error msg

/-- `Parser::return_statement`. -/
def pReturnStatement : ℕ → List Token → PRes Statement
  | 0, _ => .error "parser out of fuel"
  | fuel + 1, ts =>
    match matchTokenP [.semicolon] ts with
    | (some _, ts') => .ok (.ret none, ts')
    | (none, _) =>
        match pExpression fuel ts with
        | .ok (e, ts') =>
            match consumeP [.semicolon] "Expect ';' after return value" ts' with
            | .ok (_, ts'') => .ok (.ret (some e), ts'')
            | .error msg => .error msg
        | .error msg => .error msg

/-- The loop of `Parser::parse_stmt`: statements until end of input. -/
def pParseStmtLoop : ℕ → List Statement → List Token → PRes (List Statement)
  | 0, _, _ => .error "parser out of fuel"
  | fuel + 1, acc, ts =>
    if ts.isEmpty then .ok (acc, ts)
    else
      match pStatement fuel ts with
      | .ok (s, ts') => pParseStmtLoop fuel (acc ++ [s]) ts'
      | .error msg => .error msg

end

/-- Fuel that is always sufficient for the fuelled descent: the call depth
is bounded by a small constant per remaining token. -/
def parserFuel (tokens : List Token) : ℕ := 32 * (tokens.length + 2)

/-- `parse_stmt` from `src/tree.rs`: parse a whole program. -/
def parse_stmt (tokens : List Token) : Except String (List Statement) :=
  match pParseStmtLoop (parserFuel tokens) [] tokens with
  | .ok (stmts, _) => .ok stmts
  | .error msg => .error msg

/-- `parse` from `src/tree.rs`: parse a single expression. -/
def parse (tokens : List Token) : Except String Expr :=
  match pExpression (parserFuel tokens) tokens with
  | .ok (e, _) => .ok e
  | .error msg => .error msg

/-! ## Scanner (`src/token.rs`)

The Rust scanner indexes the source `String` both by byte (slicing,
`len()`) and by char (`chars().nth(..)`); the two agree on ASCII input,
which is all the claims exercise, so the source is modelled as a char
list with one index space. -/

/-- `match_reserved` from `src/token.rs`. -/
def match_reserved (s : String) : Option TokenType :=
  if s = "and" then some .andKw
  else if s = "class" then some .classKw
  else if s = "else" then some .elseKw
  else if s = "false" then some .falseKw
  else if s = "for" then some .forKw
  else if s = "fn" then some .fnKw
  else if s = "if" then some .ifKw
  else if s = "nil" then some .nilKw
  else if s = "or" then some .orKw
  else if s = "print" then some .printKw
  else if s = "return" then some .returnKw
  else if s = "super" then some .superKw
  else if s = "this" then some .thisKw
  else if s = "true" then some .trueKw
  else if s = "let" then some .letKw
  else if s = "while" then some .whileKw
  else none

/-- `is_digit` from `src/token.rs`. -/
def isDigitC (c : Char) : Bool := '0' ≤ c && c ≤ '9'

/-- `is_alpha` from `src/token.rs`. -/
def isAlphaC (c : Char) : Bool :=
  ('a' ≤ c && c ≤ 'z') || ('A' ≤ c && c ≤ 'Z') || c = '_'

/-- `is_alphanumeric` from `src/token.rs`. -/
def isAlphanumericC (c : Char) : Bool := isDigitC c || isAlphaC c

/-- The scanner state, from `src/token.rs` (`Scanner`): the source and the
cursors `start`, `current`, `line`. -/
structure ScanState where
  source : List Char
  start : ℕ
  current : ℕ
  line : ℕ

/-- `Scanner::is_at_end`. -/
def ScanState.is_at_end (st : ScanState) : Bool :=
  st.source.length ≤ st.current

/-- `Scanner::look`. -/
def ScanState.look (st : ScanState) (k : ℕ) : Option Char :=
  st.source.get? (st.current + k)

/-- `Scanner::peek`. -/
def ScanState.peek (st : ScanState) : Option Char := st.look 0

/-- `Scanner::advance`: return the current char and step past it.  The
Rust version unwraps; every call site has already checked that a char is
there, so the default is never produced. -/
def ScanState.advance (st : ScanState) : Char × ScanState :=
  ((st.source.get? st.current).getD ' ', { st with current := st.current + 1 })

/-- `Scanner::advance_if`. -/
def ScanState.advance_if (st : ScanState) (condition : Char) : Bool × ScanState :=
  match st.source.get? st.current with
  | some c =>
      if c = condition then (true, { st with current := st.current + 1 })
      else (false, st)
  | none => (false, st)

/-- The lexeme `source[start..current]`. -/
def ScanState.lexeme (st : ScanState) : String :=
  String.mk ((st.source.drop st.start).take (st.current - st.start))

/-- `Scanner::get_token`. -/
def ScanState.get_token (st : ScanState) (tt : TokenType)
    (lit : Option TokenLiteral) : Token :=
  ⟨tt, st.lexeme, lit, st.line⟩

/-- `Scanner::get_token_simple`. -/
def ScanState.get_token_simple (st : ScanState) (tt : TokenType) : Token :=
  st.get_token tt none

/-- The `while` loop of `Scanner::scan_string`, walking the remaining
characters (`source.drop current`, whose head is `peek()`): advance
(counting newlines) until the closing quote or end of input; returns the
final `current` and `line`. -/
def scanStringLoopAux : List Char → ℕ → ℕ → ℕ × ℕ
  | [], cur, line => (cur, line)
  | c :: rest, cur, line =>
      if c = '"' then (cur, line)
      else scanStringLoopAux rest (cur + 1) (if c = '\n' then line + 1 else line)

/-- The `while` loop of `Scanner::scan_string`, as a state transformer. -/
def scanStringLoop (st : ScanState) : ScanState :=
  ⟨st.source, st.start,
   (scanStringLoopAux (st.source.drop st.current) st.current st.line).1,
   (scanStringLoopAux (st.source.drop st.current) st.current st.line).2⟩

/-- `Scanner::scan_string`: called just after the opening quote was
consumed; fails with "Unterminated string" when the input ends first. -/
def scanString (st : ScanState) : Except String (Option Token × ScanState) :=
  let st' := scanStringLoop st
  if st'.is_at_end then .error "Unterminated string"
  else
    let content :=
      String.mk ((st'.source.drop (st'.start + 1)).take (st'.current - (st'.start + 1)))
    let st'' := (st'.advance).2
    .ok (some (st''.get_token .string (some (.str content))), st'')

/-- The comment-skipping loop of `Scanner::scan_token` (`//`), walking
the remaining characters: consume to end of line or end of input. -/
def commentLoopAux : List Char → ℕ → ℕ
  | [], cur => cur
  | c :: rest, cur => if c = '\n' then cur else commentLoopAux rest (cur + 1)

/-- The comment-skipping loop, as a state transformer. -/
def commentLoop (st : ScanState) : ScanState :=
  { st with current := commentLoopAux (st.source.drop st.current) st.current }

/-- The digit-consuming loop of `Scanner::scan_number`, walking the
remaining characters. -/
def digitsLoopAux : List Char → ℕ → ℕ
  | [], cur => cur
  | c :: rest, cur => if isDigitC c then digitsLoopAux rest (cur + 1) else cur

/-- The digit-consuming loop, as a state transformer. -/
def digitsLoop (st : ScanState) : ScanState :=
  { st with current := digitsLoopAux (st.source.drop st.current) st.current }

/-- The loop of `Scanner::scan_identifier`, walking the remaining
characters. -/
def identLoopAux : List Char → ℕ → ℕ
  | [], cur => cur
  | c :: rest, cur => if isAlphanumericC c then identLoopAux rest (cur + 1) else cur

/-- The identifier loop, as a state transformer. -/
def identLoop (st : ScanState) : ScanState :=
  { st with current := identLoopAux (st.source.drop st.current) st.current }

/-- The value of a digit character. -/
def digitVal (c : Char) : ℕ := c.toNat - '0'.toNat

/-- Parse a digit run as a natural number. -/
def digitsToNat (cs : List Char) : ℕ :=
  cs.foldl (fun n c => 10 * n + digitVal c) 0

/-- `lexeme.parse::<f64>()` on the digit/dot strings produced by
`scan_number`, as the exact decimal value (the claims only exercise small
decimals, on which the f64 parse is exact). -/
def parseNumber (cs : List Char) : F :=
  let intPart := cs.takeWhile (fun c => c ≠ '.')
  let fracPart := (cs.drop intPart.length).drop 1
  F.norm (digitsToNat intPart * 10 ^ fracPart.length + digitsToNat fracPart)
    (10 ^ fracPart.length)

/-- `Scanner::scan_number`: digits, then optionally a dot followed by at
least one digit, then more digits. -/
def scanNumber (st : ScanState) : Token × ScanState :=
  let st1 := digitsLoop st
  let st2 :=
    match st1.peek with
    | some c =>
        if c = '.' then
          match st1.look 1 with
          | some d =>
              if isDigitC d then
                digitsLoop ⟨st1.source, st1.start, st1.current + 1, st1.line⟩
              else st1
          | none => st1
        else st1
    | none => st1
  let lex := (st2.source.drop st2.start).take (st2.current - st2.start)
  (st2.get_token .number (some (.num (parseNumber lex))), st2)

/-- `Scanner::scan_identifier`: alphanumerics, then the reserved-word
lookup. -/
def scanIdentifier (st : ScanState) : Token × ScanState :=
  let st' := identLoop st
  match match_reserved st'.lexeme with
  | some reserved => (st'.get_token_simple reserved, st')
  | none => (st'.get_token_simple .identifier, st')

/-- `Scanner::scan_token`: consume one char and dispatch. -/
def scanToken (st : ScanState) : Except String (Option Token × ScanState) :=
  let (c, st1) := st.advance
  match c with
  | '(' => .ok (some (st1.get_token_simple .leftParen), st1)
  | ')' => .ok (some (st1.get_token_simple .rightParen), st1)
  | '{' => .ok (some (st1.get_token_simple .leftBrace), st1)
  | '}' => .ok (some (st1.get_token_simple .rightBrace), st1)
  | ',' => .ok (some (st1.get_token_simple .comma), st1)
  | '.' => .ok (some (st1.get_token_simple .dot), st1)
  | '-' => .ok (some (st1.get_token_simple .minus), st1)
  | '+' => .ok (some (st1.get_token_simple .plus), st1)
  | ';' => .ok (some (st1.get_token_simple .semicolon), st1)
  | '*' => .ok (some (st1.get_token_simple .star), st1)
  | '!' =>
      let (b, st2) := st1.advance_if '='
      .ok (some (st2.get_token_simple (if b then .bangEqual else .bang)), st2)
  | '=' =>
      let (b, st2) := st1.advance_if '='
      .ok (some (st2.get_token_simple (if b then .equalEqual else .equal)), st2)
  | '<' =>
      let (b, st2) := st1.advance_if '='
      .ok (some (st2.get_token_simple (if b then .lessEqual else .less)), st2)
  | '>' =>
      let (b, st2) := st1.advance_if '='
      .ok (some (st2.get_token_simple (if b then .greaterEqual else .greater)), st2)
  | '/' =>
      let (b, st2) := st1.advance_if '/'
      if b then .ok (none, commentLoop st2)
      else .ok (some (st1.get_token_simple .slash), st1)
  | ' ' => .ok (none, st1)
  | '\r' => .ok (none, st1)
  | '\t' => .ok (none, st1)
  | '\n' => .ok (none, { st1 with line := st1.line + 1 })
  | '"' => scanString st1
  | other =>
      if isDigitC other then
        let (t, st2) := scanNumber st1
        .ok (some t, st2)
      else if isAlphaC other then
        let (t, st2) := scanIdentifier st1
        .ok (some t, st2)
      else
        .error ("Unexpected character: " ++ String.singleton other)

/-- The main loop of `Scanner::scan_tokens`: set `start := current`, scan
one token, collect it.  Fuelled: every iteration advances `current` by at
least one, so `length + 1` steps always suffice. -/
def scanTokensLoop : ℕ → ScanState → List Token → Except String (List Token)
  | 0, _, _ => .error "scanner out of fuel"
  | fuel + 1, st, acc =>
    if st.is_at_end then .ok acc
    else
      match scanToken { st with start := st.current } with
      | .ok (some t, st') => scanTokensLoop fuel st' (acc ++ [t])
      | .ok (none, st') => scanTokensLoop fuel st' acc
      | .error e => .error e

/-- `scan_tokens` from `src/token.rs`: the public scanning entry point. -/
def scan_tokens (source : String) : Except String (List Token) :=
  scanTokensLoop (source.length + 1) ⟨source.data, 0, 0, 1⟩ []

/-! ## Claims -/

/-- C1: the claim says a Print statement writes the *human* representation
(`nil`, `true`/`false`, integer form without trailing `.0`, unquoted
strings), so that `print (3 + 4) * 2;` outputs the line `14`.  The code
computes the right value (`Number(14.0)`) and `Interpreter::stringify`
(dead code, but unit-tested) implements exactly the claimed
representation — but `evaluate_statement` prints with `println!("{:?}")`,
the Debug format, so the program actually outputs `Number(14.0)`, not
`14`. -/
theorem claim_C1 :
    Interpreter.interpret 20
      [.print (.binary (.grouping (.binary (.literal (.number 3)) .plus
        (.literal (.number 4)))) .multiply (.literal (.number 2)))]
      Environment.new
      = (.ok, Environment.new, [.number 14])
    ∧ printedLines [.number 14] = ["Number(14.0)"]
    ∧ stringify (.number 14) = "14"
    ∧ stringify .nil = "nil"
    ∧ stringify (.bool true) = "true"
    ∧ stringify (.bool false) = "false"
    ∧ stringify (.string "hi") = "hi"
    ∧ "Number(14.0)" ≠ "14" := by
  refine ⟨rfl, rfl, rfl, rfl, rfl, rfl, rfl, ?_⟩
  decide

/-- C3: the claim says every Return statement — *including a bare
`return;`* — raises a ReturnSignal, so statements after a bare `return;`
in a function body are not executed.  In the code the `None` arm of
`Statement::Return` returns `Ok(Value::Nil)` without raising anything, so
a bare `return;` is a no-op: in `fn f() { return; print 99; }` the print
after the bare return *does* execute. -/
theorem claim_C3 :
    (∀ (fuel : ℕ) (env : Environment),
      evalStmt (fuel + 1) (.ret none) env = (.ok .nil, env, []))
    ∧ evalFunction 20 ⟨[], .block [.ret none, .print (.literal (.number 99))]⟩ []
        Environment.new = (.ok .nil, [.number 99]) :=
  ⟨fun _ _ => rfl, rfl⟩

/-- C4: executing a Block never modifies the enclosing environment on any
path — the block runs on a value-copy snapshot (`Environment::new_child`
clones the whole scope stack), which is discarded on exit.  The second
conjunct runs `let x = 1; { let x = 2; print x; } print x;`: the inner
declaration shadows during the block, the output is `2` then `1`, and the
final environment still maps `x` to `1`. -/
theorem claim_C4 :
    (∀ (fuel : ℕ) (stmts : List Statement) (env : Environment),
      (evalStmt fuel (.block stmts) env).2.1 = env)
    ∧ Interpreter.interpret 20
        [.varDec "x" (some (.literal (.number 1))),
         .block [.varDec "x" (some (.literal (.number 2))),
                 .print (.literal (.var ⟨.identifier, "x", none, 1⟩))],
         .print (.literal (.var ⟨.identifier, "x", none, 1⟩))]
        Environment.new
      = (.ok, ⟨[[("x", .number 1)]]⟩, [.number 2, .number 1]) := by
  constructor
  · intro fuel stmts env
    cases fuel with
    | zero => rfl
    | succ f =>
        simp only [evalStmt]
        rcases h : evalStmts f stmts (Environment.new_child env) with ⟨r, e2, out⟩
        cases r <;> simp [h]
  · rfl

/-- C5 counterexample: the claim says `let x;` (no `=`) is accepted and
produces a VarDec with no initializer.  The parser's `var_declaration`
unconditionally consumes an `=` after the name, so `let x;` is rejected
with the parse error "'let' assignment must be followed by '='". -/
theorem claim_C5_counterexample :
    parse_stmt [⟨.letKw, "let", none, 1⟩, ⟨.identifier, "x", none, 1⟩,
        ⟨.semicolon, ";", none, 1⟩]
      = .error ("'let' assignment must be followed by '='") := rfl

/-- C5 amended: the initializer-less declaration the parser accepts is
`let x = ;` (name, `=`, immediate semicolon), which produces a VarDec
with an absent initializer; `let x;` itself is a parse error. -/
theorem claim_C5 (nm : String) (l1 l2 l3 l4 : ℕ) :
    parse_stmt [⟨.letKw, "let", none, l1⟩, ⟨.identifier, nm, none, l2⟩,
        ⟨.equal, "=", none, l3⟩, ⟨.semicolon, ";", none, l4⟩]
      = .ok [.varDec nm none] := rfl

/-- C6: the claim (and the spec) say a top-level `return <expr>;` must be
reported as a runtime error and the ReturnSignal must never abort the
interpreter abnormally.  In the code `Interpreter::execute` maps
`SpadeError::Return(_)` to `unreachable!()`, which panics: the program
`return 1;` (scanned and parsed exactly to that Return statement) makes
interpretation abort abnormally rather than produce an error result. -/
theorem claim_C6 :
    scan_tokens "return 1;"
      = .ok [⟨.returnKw, "return", none, 1⟩, ⟨.number, "1", some (.num 1), 1⟩,
             ⟨.semicolon, ";", none, 1⟩]
    ∧ parse_stmt [⟨.returnKw, "return", none, 1⟩, ⟨.number, "1", some (.num 1), 1⟩,
             ⟨.semicolon, ";", none, 1⟩]
      = .ok [.ret (some (.literal (.number 1)))]
    ∧ Interpreter.interpret 20 [.ret (some (.literal (.number 1)))] Environment.new
      = (.panicked, Environment.new, []) :=
  ⟨rfl, rfl, rfl⟩

/-- The code's argument loop agrees with the specification-side fold over
the parameter/argument pairs. -/
theorem bindArgs_eq_spec :
    ∀ (fuel : ℕ) (ps : List String) (args : List Expr) (env : Environment),
      bindArgs fuel ps args env = bindArgsSpec fuel (ps.zip args) env := by
  intro fuel
  induction fuel with
  | zero => intro ps args env; rfl
  | succ f ih =>
      intro ps args env
      cases ps with
      | nil => cases args <;> rfl
      | cons p ps' =>
          cases args with
          | nil => rfl
          | cons a args' =>
              simp only [bindArgs, bindArgsSpec, List.zip_cons_cons]
              rcases h : evalExpr f a env with ⟨r, out⟩
              cases r <;> simp [ih]

/-- C2 counterexample: the claim says the call scope derives from the
function's *defining* environment and that arguments are evaluated in the
*caller's* environment, so an argument cannot see the parameters being
bound.  Both halves fail on the code.  First: `f` is `fn f() { return c; }`
and `c` is defined *after* `f` — under the claim the body could not see
`c`, yet the call returns `5` (function values record no defining
environment; the child scope derives from the call-site environment).
Second: calling `g(1, x)` where `g` is `fn g(x, y) { return y; }` and `x`
is undefined in the caller — under the claim evaluating the argument `x`
must fail, yet the call returns `1`, because the second argument is
evaluated in the child scope where the parameter `x` has just been bound
to `1` (third conjunct: `x` really is undefined in the caller). -/
theorem claim_C2_counterexample :
    (evalExpr 20 (.call (.literal (.var ⟨.identifier, "f", none, 1⟩)) [])
      ⟨[[("f", .function ⟨[],
            .block [.ret (some (.literal (.var ⟨.identifier, "c", none, 1⟩)))]⟩),
         ("c", .number 5)]]⟩)
      = (.ok (.number 5), [])
    ∧ (evalExpr 20 (.call (.literal (.var ⟨.identifier, "g", none, 1⟩))
        [.literal (.number 1), .literal (.var ⟨.identifier, "x", none, 1⟩)])
      ⟨[[("g", .function ⟨["x", "y"],
            .block [.ret (some (.literal (.var ⟨.identifier, "y", none, 1⟩)))]⟩)]]⟩)
      = (.ok (.number 1), [])
    ∧ Environment.get
        ⟨[[("g", .function ⟨["x", "y"],
            .block [.ret (some (.literal (.var ⟨.identifier, "y", none, 1⟩)))]⟩)]]⟩ "x"
      = .error "Undefined variable 'x'." :=
  ⟨rfl, rfl, rfl⟩

/-- C2 amended: for every Call whose callee evaluates to a Function, the
evaluator constructs a fresh child scope derived from the *caller's*
environment at the call site (function values record no defining
environment), and evaluates the argument expressions sequentially *in
that child scope*, binding each parameter immediately after its argument
is evaluated — so later arguments can see the parameters already bound.
`callSpec` states this protocol independently; the first conjunct proves
`evaluate_function` implements it, the second that `Call` dispatches to
it once the callee evaluates to a function value. -/
theorem claim_C2 :
    (∀ (fuel : ℕ) (fn : SpadeFn) (arguments : List Expr) (env : Environment),
      evalFunction fuel fn arguments env = callSpec fuel fn arguments env)
    ∧ (∀ (fuel : ℕ) (callee : Expr) (arguments : List Expr) (env : Environment)
        (fn : SpadeFn) (out : List Value),
      evalExpr fuel callee env = (.ok (.function fn), out) →
      evalExpr (fuel + 1) (.call callee arguments) env =
        ((evalFunction fuel fn arguments env).1,
          out ++ (evalFunction fuel fn arguments env).2)) := by
  constructor
  · intro fuel fn arguments env
    cases fuel with
    | zero => rfl
    | succ f =>
        simp only [evalFunction, callSpec, bindArgs_eq_spec]
        split
        · rcases hb : bindArgsSpec f (fn.parameters.zip arguments)
            (Environment.new_child env) with ⟨r, child, out⟩
          cases r with
          | ok v =>
              simp only
              rcases hs : evalStmt f fn.body child with ⟨r2, e2, out2⟩
              cases r2 with
              | ok _ => rfl
              | err e => cases e <;> rfl
              | panicked => rfl
              | fuelOut => rfl
          | err e => rfl
          | panicked => rfl
          | fuelOut => rfl
        · rfl
  · intro fuel callee arguments env fn out h
    simp only [evalExpr, h]

/-- Witness for C2: calling a concrete one-parameter identity function
through a Call expression. -/
theorem claim_C2_witness :
    evalExpr 21 (.call (.literal (.var ⟨.identifier, "id", none, 1⟩))
        [.literal (.number 7)])
      ⟨[[("id", .function ⟨["x"],
          .block [.ret (some (.literal (.var ⟨.identifier, "x", none, 1⟩)))]⟩)]]⟩
      = (.ok (.number 7), []) := by
  have h := claim_C2.2 20 (.literal (.var ⟨.identifier, "id", none, 1⟩))
    [.literal (.number 7)]
    ⟨[[("id", .function ⟨["x"],
        .block [.ret (some (.literal (.var ⟨.identifier, "x", none, 1⟩)))]⟩)]]⟩
    ⟨["x"], .block [.ret (some (.literal (.var ⟨.identifier, "x", none, 1⟩)))]⟩
    [] rfl
  exact h.trans (by rfl)

/-- C7: unary `!` returns the Bool negation of the operand's truthiness:
`Bool b` gives `!b`, `Nil` gives `true`, every other value gives `false`,
which is exactly `Bool (not (is_truthy v))`. -/
theorem claim_C7 (fuel : ℕ) (e : Expr) (env : Environment) (v : Value)
    (out : List Value) (h : evalExpr fuel e env = (.ok v, out)) :
    evalExpr (fuel + 1) (.unary .not e) env = (.ok (.bool (!v.is_truthy)), out) := by
  simp only [evalExpr, h]
  cases v <;> rfl

/-- Witness for C7 at the concrete operand `nil`. -/
theorem claim_C7_witness :
    evalExpr 2 (.unary .not (.literal .nil)) Environment.new
      = (.ok (.bool (!Value.is_truthy .nil)), []) :=
  claim_C7 1 (.literal .nil) Environment.new .nil [] rfl

/-- C8: binary `/` first requires both operands to be Numbers ("Invalid
operands for /" otherwise), then fails with "Division by zero" exactly
when the right operand is zero, and otherwise returns the quotient; the
last conjunct runs `print 1 / 0;` and observes the "Division by zero"
runtime error. -/
theorem claim_C8 :
    (∀ l r : Value, ((∀ q : F, l ≠ .number q) ∨ (∀ q : F, r ≠ .number q)) →
        evaluateBinary l .divide r
          = .error (.runtimeError "Invalid operands for /" 0))
    ∧ (∀ lq : F, evaluateBinary (.number lq) .divide (.number 0)
        = .error (.runtimeError "Division by zero" 0))
    ∧ (∀ lq rq : F, rq ≠ 0 →
        evaluateBinary (.number lq) .divide (.number rq)
          = .ok (.number (lq / rq)))
    ∧ evalStmt 20
        (.print (.binary (.literal (.number 1)) .divide (.literal (.number 0))))
        Environment.new
      = (.err (.runtimeError "Division by zero" 0), Environment.new, []) := by
  refine ⟨?_, ?_, ?_, rfl⟩
  · intro l r h
    cases l <;> cases r <;> first
      | rfl
      | (rcases h with h | h <;> exact absurd rfl (h _))
  · intro lq
    rfl
  · intro lq rq hrq
    simp [evaluateBinary, hrq]

/-- Witness for C8: a non-number left operand, and the quotient `1 / 2`. -/
theorem claim_C8_witness :
    evaluateBinary (.string "a") .divide (.number 1)
      = .error (.runtimeError "Invalid operands for /" 0)
    ∧ evaluateBinary (.number 1) .divide (.number 2) = .ok (.number (1 / 2)) :=
  ⟨claim_C8.1 (.string "a") (.number 1) (.inl fun q h => Value.noConfusion h),
   claim_C8.2.2.1 1 2 (by decide)⟩

/-- If no closing quote occurs in the remaining characters, the string
loop consumes all of them. -/
theorem scanStringLoopAux_no_quote :
    ∀ (cs : List Char) (cur line : ℕ), '"' ∉ cs →
      (scanStringLoopAux cs cur line).1 = cur + cs.length := by
  intro cs
  induction cs with
  | nil => intro cur line _; rfl
  | cons c rest ih =>
      intro cur line h
      have hc : c ≠ '"' := fun hq => h (hq ▸ List.mem_cons_self c rest)
      have hr : '"' ∉ rest := fun hq => h (List.mem_cons_of_mem c hq)
      simp only [scanStringLoopAux, if_neg hc, ih _ _ hr, List.length_cons]
      omega

/-- C9: when the scanner reaches an opening quote and no closing quote
occurs before end of input, scanning fails with exactly the ScanError
"Unterminated string" — first in general for `scan_string` from any state
whose remaining input has no quote, then end to end: scanning the source
`"hello` returns that error and hence no token sequence. -/
theorem claim_C9 :
    (∀ st : ScanState, '"' ∉ st.source.drop st.current →
        scanString st = .error "Unterminated string")
    ∧ scan_tokens "\"hello" = .error "Unterminated string" := by
  constructor
  · intro st h
    have hc := scanStringLoopAux_no_quote (st.source.drop st.current)
      st.current st.line h
    have hend : (scanStringLoop st).is_at_end = true := by
      simp only [scanStringLoop, ScanState.is_at_end, hc, List.length_drop]
      simp only [decide_eq_true_eq]
      omega
    simp only [scanString, hend]
    rfl
  · rfl

/-- Witness for C9: the state just after the opening quote of `"hello`. -/
theorem claim_C9_witness :
    scanString ⟨"\"hello".data, 0, 1, 1⟩ = .error "Unterminated string" :=
  claim_C9.1 ⟨"\"hello".data, 0, 1, 1⟩ (by decide)

/-- C10: the parameter loop of `fn_statement` and the argument loop of
`end_arguments` both accept a trailing comma and produce the same lists
as the comma-free form (first two conjunct groups, fuel- and
context-generic), and a call `f(1,)` parses end to end exactly like
`f(1)` (next two conjuncts).  But the declaration half of the claim fails
for a reason unrelated to the comma: `fn f(a,) { }` — like `fn f(a) { }`
— is rejected with "Expect '\x7d' after block", because `fn_statement`
invokes `block_statement` without consuming the opening `{`, so the body
`{ }` is parsed as one inner block statement and the parser then demands
a second `}` (final two conjuncts: with that extra brace both forms parse,
identically). -/
theorem claim_C10 :
    (∀ (f : ℕ) (acc : List String) (nm : String) (l1 l2 l3 : ℕ) (rest : List Token),
      pFnParamsLoop (f + 2) acc
          (⟨.identifier, nm, none, l1⟩ :: ⟨.comma, ",", none, l2⟩ ::
           ⟨.rightParen, ")", none, l3⟩ :: rest)
        = .ok (acc ++ [nm], ⟨.rightParen, ")", none, l3⟩ :: rest)
      ∧ pFnParamsLoop (f + 2) acc
          (⟨.identifier, nm, none, l1⟩ :: ⟨.rightParen, ")", none, l3⟩ :: rest)
        = .ok (acc ++ [nm], ⟨.rightParen, ")", none, l3⟩ :: rest))
    ∧ (∀ (f : ℕ) (acc : List Expr) (q : F) (lex : String) (l1 l2 l3 : ℕ)
        (rest : List Token),
      pArgsLoop (f + 12) acc
          (⟨.number, lex, some (.num q), l1⟩ :: ⟨.comma, ",", none, l2⟩ ::
           ⟨.rightParen, ")", none, l3⟩ :: rest)
        = .ok (acc ++ [.literal (.number q)], ⟨.rightParen, ")", none, l3⟩ :: rest)
      ∧ pArgsLoop (f + 12) acc
          (⟨.number, lex, some (.num q), l1⟩ :: ⟨.rightParen, ")", none, l3⟩ :: rest)
        = .ok (acc ++ [.literal (.number q)], ⟨.rightParen, ")", none, l3⟩ :: rest))
    ∧ parse_stmt [⟨.identifier, "f", none, 1⟩, ⟨.leftParen, "(", none, 1⟩,
        ⟨.number, "1", some (.num 1), 1⟩, ⟨.comma, ",", none, 1⟩,
        ⟨.rightParen, ")", none, 1⟩, ⟨.semicolon, ";", none, 1⟩]
      = .ok [.expression (.call (.literal (.var ⟨.identifier, "f", none, 1⟩))
          [.literal (.number 1)])]
    ∧ parse_stmt [⟨.identifier, "f", none, 1⟩, ⟨.leftParen, "(", none, 1⟩,
        ⟨.number, "1", some (.num 1), 1⟩,
        ⟨.rightParen, ")", none, 1⟩, ⟨.semicolon, ";", none, 1⟩]
      = .ok [.expression (.call (.literal (.var ⟨.identifier, "f", none, 1⟩))
          [.literal (.number 1)])]
    ∧ parse_stmt [⟨.fnKw, "fn", none, 1⟩, ⟨.identifier, "f", none, 1⟩,
        ⟨.leftParen, "(", none, 1⟩, ⟨.identifier, "a", none, 1⟩,
        ⟨.comma, ",", none, 1⟩, ⟨.rightParen, ")", none, 1⟩,
        ⟨.leftBrace, "\x7b", none, 1⟩, ⟨.rightBrace, "\x7d", none, 1⟩]
      = .error "Expect '\x7d' after block"
    ∧ parse_stmt [⟨.fnKw, "fn", none, 1⟩, ⟨.identifier, "f", none, 1⟩,
        ⟨.leftParen, "(", none, 1⟩, ⟨.identifier, "a", none, 1⟩,
        ⟨.rightParen, ")", none, 1⟩,
        ⟨.leftBrace, "\x7b", none, 1⟩, ⟨.rightBrace, "\x7d", none, 1⟩]
      = .error "Expect '\x7d' after block"
    ∧ parse_stmt [⟨.fnKw, "fn", none, 1⟩, ⟨.identifier, "f", none, 1⟩,
        ⟨.leftParen, "(", none, 1⟩, ⟨.identifier, "a", none, 1⟩,
        ⟨.comma, ",", none, 1⟩, ⟨.rightParen, ")", none, 1⟩,
        ⟨.leftBrace, "\x7b", none, 1⟩, ⟨.rightBrace, "\x7d", none, 1⟩,
        ⟨.rightBrace, "\x7d", none, 1⟩]
      = .ok [.fnDecl "f" ["a"] (.block [.block []])]
    ∧ parse_stmt [⟨.fnKw, "fn", none, 1⟩, ⟨.identifier, "f", none, 1⟩,
        ⟨.leftParen, "(", none, 1⟩, ⟨.identifier, "a", none, 1⟩,
        ⟨.rightParen, ")", none, 1⟩,
        ⟨.leftBrace, "\x7b", none, 1⟩, ⟨.rightBrace, "\x7d", none, 1⟩,
        ⟨.rightBrace, "\x7d", none, 1⟩]
      = .ok [.fnDecl "f" ["a"] (.block [.block []])] := by
  refine ⟨?_, ?_, rfl, rfl, rfl, rfl, rfl, rfl⟩
  · intro f acc nm l1 l2 l3 rest
    exact ⟨rfl, rfl⟩
  · intro f acc q lex l1 l2 l3 rest
    exact ⟨rfl, rfl⟩

end Spade
